import Mathlib

/-
A verification development for the workload-execution harness in
`src/src/workload.rs` (enarx-wasmldr).  The data model and operations are a
shallow embedding of that file; the parts of the crate not present in the
sources (`src/virtfs.rs`, `src/config.rs`, `src/bundle.rs`) are modelled
from the specification, and external collaborators (wasmtime, wasi_common,
serde_yaml, the tar reader, the host filesystem) are modelled as oracles.
-/

set_option autoImplicit false

namespace Wasmldr

/-- The error codes of workload execution, from the `Error` enum in
`src/src/workload.rs` lines 11-23.  `IoError` wraps the underlying OS
error, modelled by its raw OS error code (the `From<std::io::Error>`
conversion at lines 25-29). -/
inductive Error where
  | ConfigurationError
  | ExportNotFound
  | InstantiationFailed
  | CallFailed
  | IoError (osCode : Nat)
  deriving DecidableEq

/-- Result values returned by the engine; `wasmtime::Val` is opaque to this
module and is modelled abstractly. -/
abbrev Val := Nat

/-- Modelled from the spec: the `FileContents` implementations behind a File
node (`src/virtfs.rs` is not in the sources; spec section 3).  `tar` is
`TarFileContents`: it aliases the byte range starting at `off` of length
`len` inside a Shared Buffer; `bufId` models the identity of the
reference-counted allocation (the `Rc` of bytes) and `buf` its contents.
`other` models any implementation that is not `TarFileContents`; the dynamic
downcast in `run` fails on it. -/
inductive FileContents where
  | tar (bufId : Nat) (buf : List Nat) (off : Nat) (len : Nat)
  | other (content : List Nat)
  deriving DecidableEq

/-- Modelled from the spec: the `size()` of a File node; for a tar-backed
file this is the length recorded for the entry's byte range. -/
def FileContents.size : FileContents → Nat
  | .tar _ _ _ len => len
  | .other content => content.length

/-- Modelled from the spec: the full content of a File node; a tar-backed
file exposes the aliased byte range of its Shared Buffer. -/
def FileContents.bytes : FileContents → List Nat
  | .tar _ buf off len => (buf.drop off).take len
  | .other content => content

/-- A File node's recorded byte range lies inside its Shared Buffer; this
holds for files produced from a well-formed archive. -/
def FileContents.WF : FileContents → Prop
  | .tar _ buf off len => off + len ≤ buf.length
  | .other _ => True

/-- The contents is of the bundle-backed `TarFileContents` kind; the dynamic
downcast at `src/src/workload.rs` lines 106-108 succeeds exactly on this
kind. -/
def FileContents.isTar : FileContents → Prop
  | .tar _ _ _ _ => True
  | .other _ => False

/-- Modelled from the spec: `read_at`/`pread` returns 0 at end-of-content
and otherwise fills as much of the caller's buffer as available.  This is
the number of bytes a positional read into a destination of length `dstLen`
at offset `pos` transfers. -/
def FileContents.preadLen (c : FileContents) (dstLen pos : Nat) : Nat :=
  min dstLen (c.size - pos)

/-- Modelled from the spec: the Virtual Filesystem Tree node type
`TarDirEntry` from `src/virtfs.rs` (not in the sources): a Directory maps
names to children (modelled as an association list with unique keys kept by
overwriting insertion), a File holds contents. -/
inductive TarDirEntry where
  | directory (entries : List (String × TarDirEntry))
  | file (contents : FileContents)

/-- The empty root Directory, `TarDirEntry::empty_directory()`
(`src/src/workload.rs` line 70). -/
def TarDirEntry.emptyDirectory : TarDirEntry := .directory []

/-- Lookup of a name among a Directory's entries. -/
def assocGet : List (String × TarDirEntry) → String → Option TarDirEntry
  | [], _ => none
  | (k, v) :: rest, key => if k = key then some v else assocGet rest key

/-- Insertion of a name among a Directory's entries, overwriting an
existing binding (last-write-wins, spec section 4.2). -/
def assocSet : List (String × TarDirEntry) → String → TarDirEntry →
    List (String × TarDirEntry)
  | [], key, v => [(key, v)]
  | (k, w) :: rest, key, v =>
      if k = key then (key, v) :: rest else (k, w) :: assocSet rest key v

/-- Modelled from the spec: path lookup (`TarDirEntry::lookup` in
`src/virtfs.rs`, not in the sources).  A path is modelled as its list of
segments, the result of splitting on the separator; the empty path returns
the node itself (spec section 3). -/
def TarDirEntry.lookup : TarDirEntry → List String → Option TarDirEntry
  | t, [] => some t
  | .directory es, name :: rest =>
      match assocGet es name with
      | some child => child.lookup rest
      | none => none
  | .file _, _ :: _ => none

/-- Every File node of the tree has contents satisfying `P`. -/
inductive AllFiles (P : FileContents → Prop) : TarDirEntry → Prop where
  | file (c : FileContents) : P c → AllFiles P (.file c)
  | directory (es : List (String × TarDirEntry))
      (h : ∀ kv ∈ es, AllFiles P kv.2) : AllFiles P (.directory es)

/-- Modelled from the spec: the path-insertion part of
`TarDirEntry::populate` (`src/virtfs.rs` is not in the sources; spec
section 4.2): walk or create Directory nodes for all but the last segment,
fail when a needed Directory collides with an existing File, and insert the
File node at the last segment, overwriting any previous node. -/
def insertPath : List String → FileContents → TarDirEntry →
    Except Unit TarDirEntry
  | [], _, _ => .error ()
  | _ :: _, _, .file _ => .error ()
  | [name], c, .directory es => .ok (.directory (assocSet es name (.file c)))
  | name :: seg :: rest, c, .directory es =>
      match assocGet es name with
      | some (.file _) => .error ()
      | some (.directory sub) =>
          match insertPath (seg :: rest) c (.directory sub) with
          | .ok child => .ok (.directory (assocSet es name child))
          | .error e => .error e
      | none =>
          match insertPath (seg :: rest) c TarDirEntry.emptyDirectory with
          | .ok child => .ok (.directory (assocSet es name child))
          | .error e => .error e

/-- An archive entry as produced by the external tar reader: its path as a
segment list, whether it is a regular file, and its content's byte range
inside the archive buffer. -/
structure TarEntry where
  path : List String
  isFile : Bool
  off : Nat
  len : Nat

/-- Replays the entries of one archive payload against the tree, as the
first handler of `populate_virtfs` does (`src/src/workload.rs` lines
37-48): the payload was copied once into the Shared Buffer identified by
`bufId`, and each regular-file entry inserts a File node aliasing that same
buffer (the `rc.clone()` at line 45).  Non-file entries are skipped, which
spec section 4.2 tolerates.  A failed insertion aborts construction; the
error kind follows spec section 4.1's `InstantiationFailed` class. -/
def populateEntries (bufId : Nat) (payload : List Nat) :
    List TarEntry → TarDirEntry → Except Error TarDirEntry
  | [], root => .ok root
  | e :: rest, root =>
      if e.isFile then
        match insertPath e.path (.tar bufId payload e.off e.len) root with
        | .ok root1 => populateEntries bufId payload rest root1
        | .error _ => .error .InstantiationFailed
      else populateEntries bufId payload rest root

/-- Modelled from the spec: the stdin policy, `ReadOnly` in `src/config.rs`
(not in the sources): read a Virtual-Filesystem-Tree path, read a host
path, inherit the host stream, or discard.  Tree paths are modelled as
segment lists, host paths as strings. -/
inductive ReadOnly where
  | bundle (path : List String)
  | file (path : String)
  | inherit
  | null
  deriving DecidableEq

/-- Modelled from the spec: the stdout/stderr policy, `WriteOnly` in
`src/config.rs` (not in the sources): write to a host path, inherit the
host stream, or discard. -/
inductive WriteOnly where
  | file (path : String)
  | inherit
  | null
  deriving DecidableEq

/-- The stdio section of the Deployment Configuration. -/
structure Stdio where
  stdin : ReadOnly
  stdout : WriteOnly
  stderr : WriteOnly
  deriving DecidableEq

/-- The Deployment Configuration record, `Config` in `src/config.rs`. -/
structure Config where
  stdio : Stdio
  deriving DecidableEq

/-- Modelled from the spec: `Config::default()` from `src/config.rs` (not
in the sources) — all streams discarded. -/
def Config.default : Config := ⟨⟨.null, .null, .null⟩⟩

/-- The configuration-reading loop of `run` (`src/src/workload.rs` lines
79-89): repeatedly `pread` at offset `len` into the free tail of the
buffer; a 0-byte read ends the loop, otherwise the bytes land at positions
`len` to `len + n` and the buffer is extended with `2 * (len + n)` zero
bytes — `buf.extend((0..len * 2).map(|_| 0u8))` runs after `len += n`.
The `pread` of an in-memory tar-backed file cannot fail, so the
`InstantiationFailed` arm guarding it at line 83 is not modelled. -/
def readLoop (c : FileContents) (buf : List Nat) (len : Nat) :
    List Nat × Nat :=
  if h : c.preadLen (buf.length - len) len = 0 then (buf, len)
  else
    let n := c.preadLen (buf.length - len) len
    readLoop c
      (buf.take len ++ (c.bytes.drop len).take n ++ buf.drop (len + n)
        ++ List.replicate ((len + n) * 2) 0)
      (len + n)
termination_by c.size - len
decreasing_by
  simp only [FileContents.preadLen] at h ⊢
  omega

/-- The bytes handed to the YAML deserializer by `run`: run the read loop
on a zero-initialised buffer of the file's size and keep the first `len`
bytes, as `&buf[..len]` does (`src/src/workload.rs` lines 77-91). -/
def readConfigBytes (c : FileContents) : List Nat :=
  let r := readLoop c (List.replicate c.size 0) 0
  r.1.take r.2

/-- Deployment-Configuration resolution against the root Directory's
entries (`src/src/workload.rs` lines 75-94): when the well-known name
`config.yaml` is bound to a File, its content is read and deserialized,
deserialization failure being `InstantiationFailed`; in every other case —
the name absent, or bound to a Directory — the `if let` falls through and
the default configuration is used. -/
def resolveConfigDir (deser : List Nat → Option Config)
    (es : List (String × TarDirEntry)) : Except Error Config :=
  match assocGet es "config.yaml" with
  | some (.file c) =>
      match deser (readConfigBytes c) with
      | some cfg => .ok cfg
      | none => .error .InstantiationFailed
  | _ => .ok Config.default

/-- Deployment-Configuration resolution on the root node: the `match root`
at `src/src/workload.rs` lines 74-97.  The non-Directory arm is
`unreachable!()`; that panic is modelled as `none`, distinct from every
`Error`. -/
def resolveConfig (deser : List Nat → Option Config) :
    TarDirEntry → Option (Except Error Config)
  | .directory es => some (resolveConfigDir deser es)
  | .file _ => none

/-- Host open flags, as set through `OpenOptions` in `run`. -/
structure OpenFlags where
  read : Bool
  write : Bool
  create : Bool
  truncate : Bool
  deriving DecidableEq

/-- Flags for a stdin host file: `OpenOptions::new().read(true)`
(`src/src/workload.rs` line 119). -/
def readOpenFlags : OpenFlags := ⟨true, false, false, false⟩

/-- Flags for a stdout or stderr host file:
`OpenOptions::new().create(true).truncate(true).write(true)`
(`src/src/workload.rs` lines 132-136 and 149-153). -/
def writeOpenFlags : OpenFlags := ⟨false, true, true, true⟩

/-- The stream bound to stdin, when any. -/
inductive StdinBinding where
  | inMemory (contents : FileContents)
  | osFile (handle : Nat)
  | readPipe
  deriving DecidableEq

/-- The stream bound to stdout or stderr, when any. -/
inductive OutBinding where
  | osFile (handle : Nat)
  | writePipe
  deriving DecidableEq

/-- The external collaborators of `run`, modelled as oracles: the bundle
container reader of `src/bundle.rs` (not in the sources; per spec section
4.1 it hands each recognised auxiliary payload's bytes to the first
handler, and `none` models a malformed container), the tar entry reader
(external tar crate), the YAML deserializer (external serde_yaml), the
host filesystem open (failing with an OS error code), the two fallible
WASI-setup steps (`builder.build()` and `wasi.add_to_linker`), and the
engine operations `Module::from_binary`, `linker.module`,
`linker.get_default` and `function.call` (external wasmtime). -/
structure Collab where
  bundleParse : List Nat → Option (List (List Nat))
  tarParse : List Nat → Except Unit (List TarEntry)
  deser : List Nat → Option Config
  openFile : String → OpenFlags → Except Nat Nat
  buildOk : Bool
  linkWasiOk : Bool
  compile : List Nat → Option Nat
  linkModule : Nat → Bool
  getDefault : Nat → Option Nat
  call : Nat → Except Unit (List Val)

/-- Replays all archive payloads discovered by the bundle reader; each
payload's bytes are copied exactly once into a fresh Shared Buffer — a
fresh `bufId` — whose entries are then inserted (`src/src/workload.rs`
lines 37-48). -/
def populatePayloads (cb : Collab) :
    Nat → List (List Nat) → TarDirEntry → Except Error TarDirEntry
  | _, [], root => .ok root
  | bufId, p :: ps, root =>
      match cb.tarParse p with
      | .error _ => .error .InstantiationFailed
      | .ok es =>
          match populateEntries bufId p es root with
          | .ok root1 => populatePayloads cb (bufId + 1) ps root1
          | .error e => .error e

/-- `populate_virtfs` (`src/src/workload.rs` lines 34-52): parse the input
as a bundle container and replay every archive payload against the tree. -/
def populate_virtfs (cb : Collab) (bytes : List Nat) (root : TarDirEntry) :
    Except Error TarDirEntry :=
  match cb.bundleParse bytes with
  | none => .error .InstantiationFailed
  | some payloads => populatePayloads cb 0 payloads root

/-- The stdin wiring of `run` (`src/src/workload.rs` lines 100-128).  For
`bundle:<path>`: a path that does not resolve, or resolves to a Directory,
is a `ConfigurationError`; a resolved File is bound as an in-memory
readable stream only when the dynamic downcast to `TarFileContents`
succeeds — otherwise the inner `if let` falls through and nothing is
bound.  For `file:<path>`: the host file is opened read-only, failure
propagating as `IoError`.  `inherit` binds a pipe on the host's stdin;
`null` binds nothing. -/
def bindStdin (cb : Collab) (root : TarDirEntry) :
    ReadOnly → Except Error (Option StdinBinding)
  | .bundle path =>
      match root.lookup path with
      | none => .error .ConfigurationError
      | some (.directory _) => .error .ConfigurationError
      | some (.file f) =>
          match f with
          | .tar _ _ _ _ => .ok (some (.inMemory f))
          | .other _ => .ok none
  | .file path =>
      match cb.openFile path readOpenFlags with
      | .ok h => .ok (some (.osFile h))
      | .error e => .error (.IoError e)
  | .inherit => .ok (some .readPipe)
  | .null => .ok none

/-- The stdout/stderr wiring of `run` (`src/src/workload.rs` lines 130-145
and 147-162; the two match arms are textually identical): `file:<path>`
opens the host file for writing, created if absent and truncated if
present, failure propagating as `IoError`; `inherit` binds a pipe on the
host stream; `null` binds nothing. -/
def bindOut (cb : Collab) : WriteOnly → Except Error (Option OutBinding)
  | .file path =>
      match cb.openFile path writeOpenFlags with
      | .ok h => .ok (some (.osFile h))
      | .error e => .error (.IoError e)
  | .inherit => .ok (some .writePipe)
  | .null => .ok none

/-- `run` (`src/src/workload.rs` lines 55-182), in the order of the
source: build the Virtual Filesystem Tree from the empty root, resolve the
Deployment Configuration, wire stdin, stdout and stderr, build the WASI
context, register it, compile the caller's bytes, link the module, resolve
the default export, and invoke it.  The first component is `some` of the
typed result or typed error, or `none` when the `unreachable!()` arm of
configuration resolution panics.  The second component records the bytes
handed to `Module::from_binary` (line 172) when that call happens. -/
def run (cb : Collab) (bytes : List Nat) :
    Option (Except Error (List Val)) × Option (List Nat) :=
  match populate_virtfs cb bytes TarDirEntry.emptyDirectory with
  | .error e => (some (.error e), none)
  | .ok root =>
    match resolveConfig cb.deser root with
    | none => (none, none)
    | some (.error e) => (some (.error e), none)
    | some (.ok cfg) =>
      match bindStdin cb root cfg.stdio.stdin with
      | .error e => (some (.error e), none)
      | .ok _ =>
        match bindOut cb cfg.stdio.stdout with
        | .error e => (some (.error e), none)
        | .ok _ =>
          match bindOut cb cfg.stdio.stderr with
          | .error e => (some (.error e), none)
          | .ok _ =>
            if cb.buildOk then
              if cb.linkWasiOk then
                match cb.compile bytes with
                | none => (some (.error .InstantiationFailed), some bytes)
                | some m =>
                  if cb.linkModule m then
                    match cb.getDefault m with
                    | none => (some (.error .ExportNotFound), some bytes)
                    | some f =>
                      match cb.call f with
                      | .error _ => (some (.error .CallFailed), some bytes)
                      | .ok vals => (some (.ok vals), some bytes)
                  else (some (.error .InstantiationFailed), some bytes)
              else (some (.error .InstantiationFailed), none)
            else (some (.error .InstantiationFailed), none)

/-- A concrete collaborator instance on which every external step succeeds
and the bundle carries no archive payload; closed theorems below
instantiate the general theorems on it or on small variations of it. -/
def okCollab : Collab :=
  ⟨fun _ => some [], fun _ => .ok [], fun _ => none, fun _ _ => .ok 0,
   true, true, fun _ => some 0, fun _ => true, fun _ => some 0,
   fun _ => .ok []⟩

/-- A concrete collaborator whose single archive payload holds one
regular-file entry at path `config.yaml/x`, so that building the tree
creates `config.yaml` at the root as a Directory; all later steps
succeed. -/
def dirConfigCollab : Collab :=
  ⟨fun _ => some [[0]], fun _ => .ok [⟨["config.yaml", "x"], true, 0, 1⟩],
   fun _ => none, fun _ _ => .ok 0, true, true, fun _ => some 0,
   fun _ => true, fun _ => some 0, fun _ => .ok []⟩

/-- A concrete collaborator identical to `okCollab` except that the engine
finds no default export. -/
def noDefaultCollab : Collab :=
  ⟨fun _ => some [], fun _ => .ok [], fun _ => none, fun _ _ => .ok 0,
   true, true, fun _ => some 0, fun _ => true, fun _ => none,
   fun _ => .ok []⟩

/-- A concrete collaborator identical to `okCollab` except that every host
open fails with OS error code 13. -/
def failOpenCollab : Collab :=
  ⟨fun _ => some [], fun _ => .ok [], fun _ => none, fun _ _ => .error 13,
   true, true, fun _ => some 0, fun _ => true, fun _ => some 0,
   fun _ => .ok []⟩

/-! Helper lemmas shared by the claim theorems. -/

theorem assocGet_mem {es : List (String × TarDirEntry)} {key : String}
    {v : TarDirEntry} (h : assocGet es key = some v) : (key, v) ∈ es := by
  induction es with
  | nil => simp [assocGet] at h
  | cons kv rest ih =>
    obtain ⟨k, w⟩ := kv
    by_cases hk : k = key
    · subst hk
      simp [assocGet] at h
      subst h
      exact List.mem_cons_self _ _
    · simp [assocGet, hk] at h
      exact List.mem_cons_of_mem _ (ih h)

theorem mem_assocSet {es : List (String × TarDirEntry)} {key : String}
    {v : TarDirEntry} {kv : String × TarDirEntry}
    (h : kv ∈ assocSet es key v) : kv = (key, v) ∨ kv ∈ es := by
  induction es with
  | nil =>
    simp [assocSet] at h
    exact Or.inl h
  | cons kw rest ih =>
    obtain ⟨k, w⟩ := kw
    by_cases hk : k = key
    · subst hk
      simp [assocSet] at h
      rcases h with h | h
      · exact Or.inl (by simp [h])
      · exact Or.inr (List.mem_cons_of_mem _ h)
    · simp [assocSet, hk] at h
      rcases h with h | h
      · exact Or.inr (by simp [h])
      · rcases ih h with h1 | h1
        · exact Or.inl h1
        · exact Or.inr (List.mem_cons_of_mem _ h1)

theorem allFiles_directory {P : FileContents → Prop}
    {es : List (String × TarDirEntry)} (h : AllFiles P (.directory es)) :
    ∀ kv ∈ es, AllFiles P kv.2 := by
  cases h with
  | directory _ h => exact h

theorem allFiles_file {P : FileContents → Prop} {c : FileContents}
    (h : AllFiles P (.file c)) : P c := by
  cases h with
  | file _ h => exact h

theorem lookup_allFiles {P : FileContents → Prop} :
    ∀ (segs : List String) (root t : TarDirEntry), AllFiles P root →
      root.lookup segs = some t → AllFiles P t := by
  intro segs
  induction segs with
  | nil =>
    intro root t hall hl
    simp [TarDirEntry.lookup] at hl
    exact hl ▸ hall
  | cons name rest ih =>
    intro root t hall hl
    cases root with
    | file c => simp [TarDirEntry.lookup] at hl
    | directory es =>
      simp only [TarDirEntry.lookup] at hl
      cases hg : assocGet es name with
      | none => rw [hg] at hl; simp at hl
      | some child =>
        rw [hg] at hl
        exact ih child t (allFiles_directory hall _ (assocGet_mem hg)) hl

theorem insertPath_allFiles {P : FileContents → Prop} {c : FileContents} :
    ∀ (segs : List String) (root root1 : TarDirEntry), P c → AllFiles P root →
      insertPath segs c root = .ok root1 → AllFiles P root1 := by
  intro segs
  induction segs with
  | nil => intro root root1 _ _ h; simp [insertPath] at h
  | cons name rest ih =>
    intro root root1 hc hall h
    cases root with
    | file f => simp [insertPath] at h
    | directory es =>
      cases rest with
      | nil =>
        simp only [insertPath, Except.ok.injEq] at h
        subst h
        refine AllFiles.directory _ ?_
        intro kv hkv
        rcases mem_assocSet hkv with h1 | h1
        · rw [h1]; exact AllFiles.file c hc
        · exact allFiles_directory hall _ h1
      | cons seg rest2 =>
        simp only [insertPath] at h
        split at h
        · exact absurd h (by simp)
        · rename_i sub hg
          split at h
          · rename_i child hrec
            simp only [Except.ok.injEq] at h
            subst h
            have hsub : AllFiles P (.directory sub) :=
              allFiles_directory hall _ (assocGet_mem hg)
            have hchild : AllFiles P child := ih _ _ hc hsub hrec
            refine AllFiles.directory _ ?_
            intro kv hkv
            rcases mem_assocSet hkv with h1 | h1
            · rw [h1]; exact hchild
            · exact allFiles_directory hall _ h1
          · exact absurd h (by simp)
        · rename_i hg
          split at h
          · rename_i child hrec
            simp only [Except.ok.injEq] at h
            subst h
            have hchild : AllFiles P child :=
              ih _ _ hc (AllFiles.directory [] (by simp)) hrec
            refine AllFiles.directory _ ?_
            intro kv hkv
            rcases mem_assocSet hkv with h1 | h1
            · rw [h1]; exact hchild
            · exact allFiles_directory hall _ h1
          · exact absurd h (by simp)

theorem insertPath_directory {segs : List String} {c : FileContents}
    {es : List (String × TarDirEntry)} {t : TarDirEntry}
    (h : insertPath segs c (.directory es) = .ok t) :
    ∃ es1, t = .directory es1 := by
  cases segs with
  | nil => simp [insertPath] at h
  | cons name rest =>
    cases rest with
    | nil =>
      simp only [insertPath, Except.ok.injEq] at h
      exact ⟨_, h.symm⟩
    | cons seg rest2 =>
      simp only [insertPath] at h
      split at h
      · exact absurd h (by simp)
      · split at h
        · simp only [Except.ok.injEq] at h
          exact ⟨_, h.symm⟩
        · exact absurd h (by simp)
      · split at h
        · simp only [Except.ok.injEq] at h
          exact ⟨_, h.symm⟩
        · exact absurd h (by simp)

theorem populateEntries_allFiles {P : FileContents → Prop} {bufId : Nat}
    {payload : List Nat} :
    ∀ (es : List TarEntry) (root root1 : TarDirEntry),
      (∀ e ∈ es, P (.tar bufId payload e.off e.len)) → AllFiles P root →
      populateEntries bufId payload es root = .ok root1 → AllFiles P root1 := by
  intro es
  induction es with
  | nil =>
    intro root root1 _ hall h
    simp only [populateEntries, Except.ok.injEq] at h
    exact h ▸ hall
  | cons e rest ih =>
    intro root root1 hp hall h
    simp only [populateEntries] at h
    by_cases hf : e.isFile
    · rw [if_pos hf] at h
      cases hins : insertPath e.path (.tar bufId payload e.off e.len) root with
      | error v => rw [hins] at h; simp at h
      | ok root2 =>
        rw [hins] at h
        have hall2 : AllFiles P root2 :=
          insertPath_allFiles _ _ _ (hp e (by simp)) hall hins
        exact ih root2 root1 (fun x hx => hp x (by simp [hx])) hall2 h
    · rw [if_neg hf] at h
      exact ih root root1 (fun x hx => hp x (by simp [hx])) hall h

theorem populateEntries_directory {bufId : Nat} {payload : List Nat} :
    ∀ (es : List TarEntry) (m : List (String × TarDirEntry))
      (root1 : TarDirEntry),
      populateEntries bufId payload es (.directory m) = .ok root1 →
      ∃ m1, root1 = .directory m1 := by
  intro es
  induction es with
  | nil =>
    intro m root1 h
    simp only [populateEntries, Except.ok.injEq] at h
    exact ⟨m, h.symm⟩
  | cons e rest ih =>
    intro m root1 h
    simp only [populateEntries] at h
    by_cases hf : e.isFile
    · rw [if_pos hf] at h
      cases hins : insertPath e.path (.tar bufId payload e.off e.len)
          (.directory m) with
      | error v => rw [hins] at h; simp at h
      | ok root2 =>
        rw [hins] at h
        obtain ⟨m2, rfl⟩ := insertPath_directory hins
        exact ih m2 root1 h
    · rw [if_neg hf] at h
      exact ih m root1 h

theorem populatePayloads_directory {cb : Collab} :
    ∀ (ps : List (List Nat)) (bufId : Nat)
      (m : List (String × TarDirEntry)) (root1 : TarDirEntry),
      populatePayloads cb bufId ps (.directory m) = .ok root1 →
      ∃ m1, root1 = .directory m1 := by
  intro ps
  induction ps with
  | nil =>
    intro bufId m root1 h
    simp only [populatePayloads, Except.ok.injEq] at h
    exact ⟨m, h.symm⟩
  | cons p rest ih =>
    intro bufId m root1 h
    simp only [populatePayloads] at h
    split at h
    · exact absurd h (by simp)
    · rename_i es hteq
      split at h
      · rename_i root2 hp
        obtain ⟨m2, rfl⟩ := populateEntries_directory es m root2 hp
        exact ih (bufId + 1) m2 root1 h
      · exact absurd h (by simp)

theorem populate_virtfs_directory {cb : Collab} {bytes : List Nat}
    {root1 : TarDirEntry}
    (h : populate_virtfs cb bytes TarDirEntry.emptyDirectory = .ok root1) :
    ∃ m1, root1 = .directory m1 := by
  unfold populate_virtfs at h
  cases hb : cb.bundleParse bytes with
  | none => rw [hb] at h; simp at h
  | some payloads =>
    rw [hb] at h
    exact populatePayloads_directory payloads 0 [] root1 h

theorem bytes_length {c : FileContents} (h : c.WF) :
    c.bytes.length = c.size := by
  cases c with
  | tar bufId buf off len =>
    simp only [FileContents.WF] at h
    simp only [FileContents.bytes, FileContents.size, List.length_take,
      List.length_drop]
    omega
  | other content => rfl

theorem readLoop_stop {c : FileContents} {buf : List Nat} {len : Nat}
    (h : c.preadLen (buf.length - len) len = 0) :
    readLoop c buf len = (buf, len) := by
  rw [readLoop.eq_def]
  simp [h]

theorem readLoop_go {c : FileContents} {buf : List Nat} {len : Nat}
    (h : c.preadLen (buf.length - len) len ≠ 0) :
    readLoop c buf len =
      readLoop c
        (buf.take len
          ++ (c.bytes.drop len).take (c.preadLen (buf.length - len) len)
          ++ buf.drop (len + c.preadLen (buf.length - len) len)
          ++ List.replicate ((len + c.preadLen (buf.length - len) len) * 2) 0)
        (len + c.preadLen (buf.length - len) len) := by
  conv_lhs => rw [readLoop.eq_def]
  simp [h]

theorem readConfigBytes_eq {c : FileContents} (h : c.WF) :
    readConfigBytes c = c.bytes := by
  have hlen := bytes_length h
  unfold readConfigBytes
  by_cases hsz : c.size = 0
  · rw [readLoop_stop (by simp [FileContents.preadLen, hsz])]
    simp only [List.take_zero]
    exact (List.length_eq_zero.mp (by rw [hlen, hsz])).symm
  · have hpl : c.preadLen ((List.replicate c.size 0).length - 0) 0 = c.size := by
      simp [FileContents.preadLen]
    rw [readLoop_go (by rw [hpl]; exact hsz)]
    rw [hpl]
    simp only [List.take_zero, List.drop_zero, Nat.zero_add, List.nil_append]
    rw [← hlen, List.take_length, hlen]
    rw [List.drop_replicate]
    simp only [Nat.sub_self, List.replicate_zero, List.append_nil]
    rw [readLoop_stop (by simp [FileContents.preadLen])]
    simp only []
    exact List.take_left' hlen
/-! Claim C1. -/

/-- C1, counterexample: on an input whose Virtual Filesystem Tree has
`config.yaml` at the root resolving to a Directory node (created as the
parent directory of the archive entry `config.yaml/x`), `run` does not
signal `InstantiationFailed`: configuration resolution falls back to the
default and the run completes with the engine's result. -/
theorem claim1_counterexample :
    (run dirConfigCollab [0]).1 = some (.ok []) ∧
    (run dirConfigCollab [0]).1 ≠ some (.error .InstantiationFailed) := by
  have h1 : (run dirConfigCollab [0]).1 = some (.ok []) := rfl
  refine ⟨h1, ?_⟩
  rw [h1]
  simp

/-- C1, amended claim: when the well-known configuration path resolves to a
Directory node, `run` does not signal `InstantiationFailed` during
Deployment Configuration resolution: the `if let` requires a File, so a
Directory falls through to the default all-discarded configuration. -/
theorem claim1_amended (deser : List Nat → Option Config)
    (es d : List (String × TarDirEntry))
    (h : assocGet es "config.yaml" = some (.directory d)) :
    resolveConfigDir deser es = .ok Config.default := by
  unfold resolveConfigDir
  rw [h]

/-- C1, witness for the amended claim at a concrete tree. -/
theorem claim1_amended_witness :
    resolveConfigDir (fun _ => none)
      [("config.yaml", TarDirEntry.directory [])] = .ok Config.default :=
  claim1_amended (fun _ => none) _ [] rfl

/-! Claim C2. -/

/-- C2: for a Deployment Configuration with stdin policy `bundle:<path>`,
over a tree all of whose File nodes are bundle-backed (as every tree built
by `populate_virtfs` is), the stdin wiring returns `ConfigurationError` if
and only if the path does not resolve or resolves to a Directory, and a
path resolving to a File binds that file as an in-memory readable stream
on stdin. -/
theorem claim2_stdin_bundle (cb : Collab) (root : TarDirEntry)
    (path : List String) (hall : AllFiles FileContents.isTar root) :
    (bindStdin cb root (.bundle path) = .error .ConfigurationError ↔
      root.lookup path = none ∨
        ∃ es, root.lookup path = some (.directory es)) ∧
    (∀ f, root.lookup path = some (.file f) →
      bindStdin cb root (.bundle path) = .ok (some (.inMemory f))) := by
  have hfile : ∀ f, root.lookup path = some (.file f) →
      bindStdin cb root (.bundle path) = .ok (some (.inMemory f)) := by
    intro f hl
    have htar : FileContents.isTar f :=
      allFiles_file (lookup_allFiles path root _ hall hl)
    cases f with
    | tar i b o l => simp only [bindStdin, hl]
    | other content => exact absurd htar (by simp [FileContents.isTar])
  refine ⟨⟨?_, ?_⟩, hfile⟩
  · intro h
    cases hl : root.lookup path with
    | none => exact Or.inl rfl
    | some t =>
      cases t with
      | directory es => exact Or.inr ⟨es, rfl⟩
      | file f =>
        rw [hfile f hl] at h
        exact absurd h (by simp)
  · intro h
    rcases h with hl | ⟨es, hl⟩
    · simp only [bindStdin, hl]
    · simp only [bindStdin, hl]

/-- C2, witness: a concrete tree holding one bundle-backed file `in.txt`
binds it on stdin. -/
theorem claim2_witness :
    bindStdin okCollab
      (TarDirEntry.directory [("in.txt", .file (.tar 0 [104, 105] 0 2))])
      (.bundle ["in.txt"])
      = .ok (some (.inMemory (.tar 0 [104, 105] 0 2))) :=
  (claim2_stdin_bundle okCollab _ ["in.txt"]
    (AllFiles.directory _ (by
      intro kv hkv
      simp only [List.mem_singleton] at hkv
      subst hkv
      exact AllFiles.file _ trivial))).2 _ rfl

/-! Claim C3. -/

/-- C3: every File node of a tree built from one archive payload references
the same Shared Buffer: the allocation with the one fresh identifier
`bufId` holding the single copy `payload` of the archive bytes.  File nodes
carry only an offset and a length into it — no per-file copy. -/
theorem claim3_zero_copy (bufId : Nat) (payload : List Nat)
    (es : List TarEntry) (root1 : TarDirEntry)
    (h : populateEntries bufId payload es TarDirEntry.emptyDirectory
      = .ok root1) :
    AllFiles (fun c => ∃ off len, c = .tar bufId payload off len) root1 :=
  populateEntries_allFiles es _ root1 (fun e _ => ⟨e.off, e.len, rfl⟩)
    (AllFiles.directory [] (by simp)) h

/-- C3, witness: a two-entry archive produces a tree whose two File nodes
both alias buffer 0 holding the payload. -/
theorem claim3_witness :
    AllFiles (fun c => ∃ off len, c = FileContents.tar 0 [1, 2, 3] off len)
      (TarDirEntry.directory [("a", .file (.tar 0 [1, 2, 3] 0 1)),
        ("d", TarDirEntry.directory
          [("b", .file (.tar 0 [1, 2, 3] 1 2))])]) :=
  claim3_zero_copy 0 [1, 2, 3]
    [⟨["a"], true, 0, 1⟩, ⟨["d", "b"], true, 1, 2⟩] _ rfl

/-! Claim C4. -/

/-- C4: whenever `run` reaches the engine's compile step, the bytes it
hands to `Module::from_binary` are the caller's original input bytes,
unchanged by bundle parsing and Virtual Filesystem construction. -/
theorem claim4_compile_input (cb : Collab) (bytes : List Nat) :
    (run cb bytes).2 = none ∨ (run cb bytes).2 = some bytes := by
  unfold run
  repeat' split
  all_goals simp

/-! Claim C5. -/

/-- C5, counterexample: the read loop does not double the buffer on a
partial read.  For a 1-byte file and the initial 1-byte buffer, the single
nonzero read is followed by `buf.extend((0..len * 2)...)`, leaving a
buffer of length 3 — doubling would leave length 2. -/
theorem claim5_counterexample :
    readLoop (FileContents.other [7])
      (List.replicate (FileContents.other [7]).size 0) 0 = ([7, 0, 0], 1) ∧
    ([7, 0, 0] : List Nat).length
      ≠ 2 * (List.replicate (FileContents.other [7]).size 0).length := by
  have h1 : readLoop (FileContents.other [7]) [0] 0
      = readLoop (FileContents.other [7]) [7, 0, 0] 1 := by
    rw [readLoop_go (by decide)]
    rfl
  have h2 : readLoop (FileContents.other [7]) [7, 0, 0] 1 = ([7, 0, 0], 1) :=
    readLoop_stop (by decide)
  exact ⟨h1.trans h2, by decide⟩

/-- C5, amended claim: when the configuration resource is present as a
(well-formed) File, `run` reads its entire content via repeated positional
reads into a growable buffer — after each nonzero read the buffer grows by
twice the total bytes read so far — terminating exactly when a read
returns 0 bytes; the bytes then deserialized equal the File's full
content, and deserialization failure yields `InstantiationFailed`. -/
theorem claim5_amended (deser : List Nat → Option Config)
    (es : List (String × TarDirEntry)) (c : FileContents)
    (hget : assocGet es "config.yaml" = some (.file c)) (hwf : c.WF) :
    (∀ cfg, deser c.bytes = some cfg → resolveConfigDir deser es = .ok cfg) ∧
    (deser c.bytes = none →
      resolveConfigDir deser es = .error .InstantiationFailed) := by
  have hb : readConfigBytes c = c.bytes := readConfigBytes_eq hwf
  constructor
  · intro cfg hd
    unfold resolveConfigDir
    simp only [hget, hb, hd]
  · intro hd
    unfold resolveConfigDir
    simp only [hget, hb, hd]

/-- C5, witness for the amended claim: a concrete 1-byte configuration
file is read in full and deserialized. -/
theorem claim5_witness :
    resolveConfigDir
      (fun bs => if bs = [9] then some ⟨⟨.inherit, .null, .null⟩⟩ else none)
      [("config.yaml", TarDirEntry.file (.other [9]))]
      = .ok ⟨⟨.inherit, .null, .null⟩⟩ :=
  (claim5_amended
    (fun bs => if bs = [9] then some ⟨⟨.inherit, .null, .null⟩⟩ else none)
    [("config.yaml", TarDirEntry.file (.other [9]))]
    (.other [9]) rfl trivial).1 _ rfl

/-! Claim C6. -/

/-- C6: when the tree has no entry at the well-known configuration path,
the resolved Deployment Configuration is the all-streams-discarded
default, and under it the stdin, stdout and stderr wiring of `run` binds
no stream at all. -/
theorem claim6_default_fallback (cb : Collab)
    (es : List (String × TarDirEntry))
    (h : assocGet es "config.yaml" = none) :
    resolveConfig cb.deser (.directory es) = some (.ok Config.default) ∧
    Config.default.stdio.stdin = .null ∧
    Config.default.stdio.stdout = .null ∧
    Config.default.stdio.stderr = .null ∧
    bindStdin cb (.directory es) Config.default.stdio.stdin = .ok none ∧
    bindOut cb Config.default.stdio.stdout = .ok none ∧
    bindOut cb Config.default.stdio.stderr = .ok none := by
  refine ⟨?_, rfl, rfl, rfl, rfl, rfl, rfl⟩
  simp only [resolveConfig, resolveConfigDir, h]

/-- C6, witness at the empty tree. -/
theorem claim6_witness :
    resolveConfig okCollab.deser (TarDirEntry.directory [])
      = some (.ok Config.default) ∧
    bindStdin okCollab (TarDirEntry.directory [])
      Config.default.stdio.stdin = .ok none ∧
    bindOut okCollab Config.default.stdio.stdout = .ok none ∧
    bindOut okCollab Config.default.stdio.stderr = .ok none :=
  ⟨(claim6_default_fallback okCollab [] rfl).1,
   (claim6_default_fallback okCollab [] rfl).2.2.2.2.1,
   (claim6_default_fallback okCollab [] rfl).2.2.2.2.2.1,
   (claim6_default_fallback okCollab [] rfl).2.2.2.2.2.2⟩

/-! Claim C7. -/

/-- C7: when the earlier pipeline stages succeed, the module compiles (it
is syntactically valid) and links, but the engine finds no default entry
point, `run` fails with exactly `ExportNotFound` — an error, never partial
result values. -/
theorem claim7_export_not_found (cb : Collab) (bytes : List Nat)
    (root : TarDirEntry) (cfg : Config) (m : Nat)
    (hroot : populate_virtfs cb bytes TarDirEntry.emptyDirectory = .ok root)
    (hcfg : resolveConfig cb.deser root = some (.ok cfg))
    (hin : ∃ s, bindStdin cb root cfg.stdio.stdin = .ok s)
    (hout : ∃ s, bindOut cb cfg.stdio.stdout = .ok s)
    (herr : ∃ s, bindOut cb cfg.stdio.stderr = .ok s)
    (hbuild : cb.buildOk = true) (hwasi : cb.linkWasiOk = true)
    (hcompile : cb.compile bytes = some m) (hlink : cb.linkModule m = true)
    (hdef : cb.getDefault m = none) :
    (run cb bytes).1 = some (.error .ExportNotFound) := by
  obtain ⟨s1, hin⟩ := hin
  obtain ⟨s2, hout⟩ := hout
  obtain ⟨s3, herr⟩ := herr
  unfold run
  simp only [hroot, hcfg, hin, hout, herr, hbuild, hwasi, hcompile, hlink,
    hdef, if_true]

/-- C7, witness: a bundle with no archive payloads and an engine finding
no default export yield exactly `ExportNotFound`. -/
theorem claim7_witness :
    (run noDefaultCollab [9]).1 = some (.error .ExportNotFound) :=
  claim7_export_not_found noDefaultCollab [9] TarDirEntry.emptyDirectory
    Config.default 0 rfl rfl ⟨none, rfl⟩ ⟨none, rfl⟩ ⟨none, rfl⟩
    rfl rfl rfl rfl rfl

/-! Claim C8. -/

/-- C8: for stdout (and identically stderr), a `file:<path>` policy opens
the host file for writing with create-if-absent and truncate-if-present
flags, and a failed host open makes the wiring return `IoError` wrapping
the underlying OS error. -/
theorem claim8_out_file (cb : Collab) (path : String) :
    writeOpenFlags.write = true ∧ writeOpenFlags.create = true ∧
    writeOpenFlags.truncate = true ∧
    (∀ fd, cb.openFile path writeOpenFlags = .ok fd →
      bindOut cb (.file path) = .ok (some (.osFile fd))) ∧
    (∀ e, cb.openFile path writeOpenFlags = .error e →
      bindOut cb (.file path) = .error (.IoError e)) := by
  refine ⟨rfl, rfl, rfl, ?_, ?_⟩
  · intro fd hopen
    simp only [bindOut, hopen]
  · intro e hopen
    simp only [bindOut, hopen]

/-- C8, witness: a host open failing with OS error 13 becomes
`IoError 13`. -/
theorem claim8_witness :
    bindOut failOpenCollab (.file "out.log") = .error (.IoError 13) :=
  (claim8_out_file failOpenCollab "out.log").2.2.2.2 13 rfl

/-! Claim C9. -/

/-- C9: when a `bundle:<path>` stdin policy resolves to a File whose
contents is not the bundle-backed kind — the runtime downcast fails — the
wiring succeeds without binding any stdin stream: no
`ConfigurationError`. -/
theorem claim9_downcast_fallthrough (cb : Collab) (root : TarDirEntry)
    (path : List String) (content : List Nat)
    (h : root.lookup path = some (.file (.other content))) :
    bindStdin cb root (.bundle path) = .ok none := by
  simp only [bindStdin, h]

/-- C9, witness at a concrete tree holding one non-bundle-backed file. -/
theorem claim9_witness :
    bindStdin okCollab
      (TarDirEntry.directory [("s.txt", .file (.other [1]))])
      (.bundle ["s.txt"]) = .ok none :=
  claim9_downcast_fallthrough okCollab _ ["s.txt"] [1] rfl

/-! Claim C10. -/

/-- C10: the root created as an empty Directory is still a Directory after
`populate_virtfs`, so the non-Directory arm of the configuration-resolution
match — `unreachable!()`, modelled as the `none` outcome — is never
executed: `run` never panics there. -/
theorem claim10_no_panic (cb : Collab) (bytes : List Nat) :
    (∀ root1, populate_virtfs cb bytes TarDirEntry.emptyDirectory = .ok root1 →
      ∃ es, root1 = .directory es) ∧
    (run cb bytes).1 ≠ none := by
  refine ⟨fun root1 h => populate_virtfs_directory h, ?_⟩
  unfold run
  split
  · simp
  · rename_i root hroot
    obtain ⟨es, rfl⟩ := populate_virtfs_directory hroot
    simp only [resolveConfig]
    repeat' split
    all_goals simp_all

/-- C10, witness at a concrete input. -/
theorem claim10_witness :
    (run okCollab [0]).1 ≠ none ∧
    (∃ es, TarDirEntry.emptyDirectory = TarDirEntry.directory es) :=
  ⟨(claim10_no_panic okCollab [0]).2,
   (claim10_no_panic okCollab [0]).1 TarDirEntry.emptyDirectory rfl⟩

end Wasmldr
